import Mathlib

/-!
Verification development for the p2c2r repository: a shallow embedding of
the Coordinator scheduler (src/p2c2g/coordinator.py), the networked cloud
coordinator (network/cloud_coordinator.py), the demo cloud coordinator with
its SQLite-backed result cache (multi_device_demo/run_cloud.py and
cloud_storage.py), and the ML scheduler (docs/archive/src/p2c2g/ml_coordinator.py),
together with theorems settling the specification claims about them.

Machine floats from the source are modelled as rationals; Python `int()`
truncation is modelled explicitly.  Randomized task outcomes (PeerAgent
reliability draws) are modelled as an explicit list of Booleans, one per
process_task call.  Telemetry values (latency and so on) that the source
draws at heartbeat time are carried as fields of the peer record.
-/

namespace P2C2G

/-- Python `int()` applied to a rational: truncation toward zero. -/
def pyInt (q : ℚ) : Int :=
  if 0 ≤ q then Int.floor q else Int.ceil q

/-- A peer as seen by the scheduler: `peer_id`, the telemetry latency the
heartbeat reports, the current `in_flight` count, the parallelism cap
(`max_throughput` in `PeerAgent`, read as `max_in_flight` by the ML
coordinator) and the registered `reliability`. -/
structure PeerAgent where
  peer_id : String
  latency_ms : Int
  in_flight : Nat
  max_in_flight : Nat
  reliability : ℚ
deriving DecidableEq

/-- The Coordinator's reputation table, keyed by peer id
(`Coordinator.reputation` in coordinator.py). -/
abbrev RepMap := List (String × ℚ)

/-- Reputation of a peer (`self.reputation[p.peer_id]`); registered peers
always have an entry, absent keys default to 0. -/
def repOf (rep : RepMap) (pid : String) : ℚ :=
  ((rep.find? (fun e => e.1 == pid)).map Prod.snd).getD 0

/-- Point update of the reputation table at an existing key. -/
def updRep (rep : RepMap) (pid : String) (f : ℚ → ℚ) : RepMap :=
  rep.map (fun e => if e.1 == pid then (e.1, f e.2) else e)

/-- The selection score from `Coordinator.pick_peer`:
`t.latency_ms + p.in_flight * 15 + int((1.0 - self.reputation[p.peer_id]) * 50)`. -/
def cost (rep : RepMap) (p : PeerAgent) : Int :=
  p.latency_ms + (p.in_flight : Int) * 15 + pyInt ((1 - repOf rep p.peer_id) * 50)

/-- `Coordinator.pick_peer`: score every registered peer and return the head
of the stably sorted list, i.e. the first peer (in registration order)
achieving the minimal cost.  Returns `none` when no peers are registered. -/
def pick_peer (rep : RepMap) : List PeerAgent → Option PeerAgent
  | [] => none
  | p :: ps =>
    match pick_peer rep ps with
    | none => some p
    | some q => if cost rep q < cost rep p then some q else some p

/-- The four reputation observations of coordinator.py:
success in `schedule_task` is `min(1.0, r + 0.02)`, success in
`handle_failover` is `min(1.0, r + 0.01)`, failure in `schedule_task` is
`max(0.0, r - 0.05)`, failure in `handle_failover` is `max(0.0, r - 0.08)`. -/
def updateRep (success failover : Bool) (r : ℚ) : ℚ :=
  match success, failover with
  | true,  false => min 1 (r + 2/100)
  | true,  true  => min 1 (r + 1/100)
  | false, false => max 0 (r - 5/100)
  | false, true  => max 0 (r - 8/100)

/-- Outcome of one `handle_failover` call: the returned Boolean, the task's
final `attempts`, the peers assigned (in order), the final reputation table,
and the number of recursive self-calls performed. -/
structure FailoverOut where
  reissued : Bool
  attempts : Nat
  assigned : List String
  rep : RepMap
  recCalls : Nat
deriving DecidableEq

/-- Recursion core of `Coordinator.handle_failover`.  The fuel argument is
kept equal to `max_attempts - attempts`, so `fuel = 0` is exactly the guard
`task.attempts >= self.max_attempts` (which returns `False` with nothing
changed).  Otherwise: `task.attempts += 1`, pick a peer (return `False` if
none), await `process_task` (its success is the head of `outcomes`), update
reputation, and on failure recurse on the remaining outcomes. -/
def failoverAux (peers : List PeerAgent) : Nat → RepMap → Nat → List Bool → FailoverOut
  | 0, rep, attempts, _ => ⟨false, attempts, [], rep, 0⟩
  | fuel + 1, rep, attempts, outcomes =>
    match pick_peer rep peers with
    | none => ⟨false, attempts + 1, [], rep, 0⟩
    | some peer =>
      if outcomes.headD false then
        ⟨true, attempts + 1, [peer.peer_id],
          updRep rep peer.peer_id (updateRep true true), 0⟩
      else
        let rep1 := updRep rep peer.peer_id (updateRep false true)
        let rest := failoverAux peers fuel rep1 (attempts + 1) outcomes.tail
        ⟨rest.reissued, rest.attempts, peer.peer_id :: rest.assigned, rest.rep, rest.recCalls + 1⟩

/-- `Coordinator.handle_failover(task, last_error)`: the guard
`task.attempts >= self.max_attempts` is encoded by giving the recursion core
`max_attempts - attempts` fuel. -/
def handle_failover (peers : List PeerAgent) (maxAttempts : Nat)
    (rep : RepMap) (attempts : Nat) (outcomes : List Bool) : FailoverOut :=
  failoverAux peers (maxAttempts - attempts) rep attempts outcomes

/-- Outcome of one `schedule_task` call: final `attempts`, the full sequence
of peers the task was assigned to, whether the task completed, and the final
reputation table. -/
structure ScheduleOut where
  attempts : Nat
  assigned : List String
  completed : Bool
  rep : RepMap
deriving DecidableEq

/-- `Coordinator.schedule_task(task)` for a task whose `attempts` counter is
`attempts0` at entry (a fresh task has `attempts0 = 0`): increment
`task.attempts`, pick a peer (give up if none), await `process_task`
(success is the head of `outcomes`), update reputation and on failure run
`handle_failover` on the remaining outcomes. -/
def schedule_task (peers : List PeerAgent) (maxAttempts : Nat)
    (rep : RepMap) (attempts0 : Nat) (outcomes : List Bool) : ScheduleOut :=
  let attempts := attempts0 + 1
  match pick_peer rep peers with
  | none => ⟨attempts, [], false, rep⟩
  | some peer =>
    if outcomes.headD false then
      ⟨attempts, [peer.peer_id], true, updRep rep peer.peer_id (updateRep true false)⟩
    else
      let rep1 := updRep rep peer.peer_id (updateRep false false)
      let fo := handle_failover peers maxAttempts rep1 attempts outcomes.tail
      ⟨fo.attempts, peer.peer_id :: fo.assigned, fo.reissued, fo.rep⟩

/-- The score the specification ascribes to the heuristic selector:
`reported_latency_ms + 15 * in_flight + 50 * (1 - reputation)`, as an exact
rational (no truncation). -/
def score_spec (rep : RepMap) (p : PeerAgent) : ℚ :=
  (p.latency_ms : ℚ) + 15 * p.in_flight + 50 * (1 - repOf rep p.peer_id)

end P2C2G

namespace MLCoord

/-- A peer as seen by `MLCoordinator.schedule_task_ml`: the fields the
candidate loop reads from the peer object and from its heartbeat telemetry
(`latency_ms`, `thermal_status`, `gpu_load`, `cpu_load`). -/
structure MlPeer where
  peer_id : String
  latency_ms : ℚ
  in_flight : Nat
  max_in_flight : Nat
  reliability : ℚ
  thermal_status : String
  gpu_load : ℚ
  cpu_load : ℚ
deriving DecidableEq

/-- `PeerPerformanceHistory`, restricted to the data the score path reads:
`completion_times`, success/failure counters, the recent-time list for the
submitted task's type (`task_type_performance[task_type]`, empty when the
type was never seen), the latency samples for the current hour
(`hourly_latency[current_hour]`), `network_latency` and `jitter`.  The
`std_completion_time`-derived fields of `MLPrediction` (confidence and the
bounds, computed with `np.std`) never enter the score and are not modelled. -/
structure PeerHistory where
  completion_times : List ℚ
  success_count : Nat
  failure_count : Nat
  task_type_times : List ℚ
  hourly : List ℚ
  network_latency : List ℚ
  jitter : List ℚ
deriving DecidableEq

/-- `np.mean` over a sample list. -/
def listMean (l : List ℚ) : ℚ := l.sum / l.length

/-- `PeerPerformanceHistory.success_rate`: successes over total, 0.5 when
no observation exists. -/
def success_rate (h : PeerHistory) : ℚ :=
  if h.success_count + h.failure_count > 0 then
    (h.success_count : ℚ) / (h.success_count + h.failure_count)
  else 1/2

/-- `PeerPerformanceHistory.avg_completion_time`: mean of the completion
times, 100.0 when empty. -/
def avg_completion_time (h : PeerHistory) : ℚ :=
  if h.completion_times ≠ [] then listMean h.completion_times else 100

/-- `PeerPerformanceHistory.get_task_type_avg`: mean of the task-type
specific times, falling back to the overall average. -/
def get_task_type_avg (h : PeerHistory) : ℚ :=
  if h.task_type_times ≠ [] then listMean h.task_type_times
  else avg_completion_time h

/-- `PeerPerformanceHistory.get_hourly_latency` for the current hour. -/
def get_hourly_latency (h : PeerHistory) : ℚ :=
  if h.hourly ≠ [] then listMean h.hourly
  else if h.network_latency ≠ [] then listMean h.network_latency
  else 50

/-- The `expected_time_ms` of `PerformancePredictor.predict`:
task-type base time, plus `current_load * 5.0`, plus the time-of-day
adjustment `hourly_latency - np.mean(network_latency)` (0 when there are no
network-latency samples). -/
def predict_expected (current_load : Nat) (h : PeerHistory) : ℚ :=
  get_task_type_avg h + current_load * 5 +
    (if h.network_latency ≠ [] then get_hourly_latency h - listMean h.network_latency else 0)

/-- `FailurePredictor.predict`: thermal, saturation, historical and jitter
risk terms, capped at 1. -/
def failure_risk (p : MlPeer) (h : PeerHistory) : ℚ :=
  min 1
    ((if p.thermal_status == "critical" then 3/10
      else if p.thermal_status == "high" then 15/100 else 0)
     + (if p.gpu_load > 95/100 then 2/10 else 0)
     + (if p.cpu_load > 95/100 then 1/10 else 0)
     + (1 - success_rate h) * (3/10)
     + (if h.jitter ≠ [] ∧ listMean h.jitter > 20 then 1/10 else 0))

/-- `MLCoordinator.min_training_samples`. -/
def min_training_samples : Nat := 10

/-- The score `schedule_task_ml` computes for one candidate: when the
history holds at least `min_training_samples` completion times, the ML
branch `expected_time / (1.0 - failure_prob + 0.01) + telemetry.latency_ms`;
otherwise the new-peer fallback
`(100.0 + in_flight * 5.0) / (reliability + 0.01) + telemetry.latency_ms`. -/
def ml_score (p : MlPeer) (h : PeerHistory) : ℚ :=
  if h.completion_times.length ≥ min_training_samples then
    predict_expected p.in_flight h / (1 - failure_risk p h + 1/100) + p.latency_ms
  else
    (100 + p.in_flight * 5) / (p.reliability + 1/100) + p.latency_ms

/-- The risk adjustment the specification prescribes:
`expected_ms / max(ε, 1 - failure_probability)` with `ε = 0.01`. -/
def risk_adjusted_spec (expected fp : ℚ) : ℚ := expected / max (1/100) (1 - fp)

/-- The candidate set of `schedule_task_ml`: the loop `continue`s past any
peer with `in_flight >= max_in_flight`; every other registered peer is kept
(no idleness or capability test appears in the loop). -/
def ml_candidates (ps : List MlPeer) : List MlPeer :=
  ps.filter (fun p => decide (p.in_flight < p.max_in_flight))

end MLCoord

namespace CloudNet

/-- `PeerInfo` of network/cloud_coordinator.py (the websocket handle and the
ip are irrelevant to the claims and omitted; `capabilities` is opaque). -/
structure PeerInfo where
  peer_id : String
  status : String
  current_task : Option String
  tasks_completed : Nat
  tasks_failed : Nat
  avg_completion_time : ℚ
  last_heartbeat : ℚ
deriving DecidableEq

/-- One entry of `CloudCoordinator.pending_tasks`: the submitting user, the
assigned peer and the assignment time. -/
structure PendingTask where
  user : String
  peer_id : String
  start_time : ℚ
deriving DecidableEq

/-- `CloudCoordinator` state: the registry (in registration order, keyed by
`peer_id`) and the `pending_tasks` dict. -/
structure CoordState where
  peers : List PeerInfo
  pending : String → Option PendingTask

/-- The inbound events the coordinator reacts to, each carrying the wall
clock at handling time. -/
inductive Event where
  | register_peer (peer_id : String) (now : ℚ)
  | heartbeat (peer_id : String) (now : ℚ)
  | task_request (task_id user : String) (now : ℚ)
  | task_result (task_id peer_id : String) (now : ℚ)
  | task_failure (task_id peer_id : String) (now : ℚ)
  | monitor_tick (now : ℚ)

/-- The messages the coordinator emits.  `task_result_msg` and `task_error`
are the renter-facing terminal messages; `registration_ack`,
`peer_count_update` and `task_assignment` are not terminal. -/
inductive Msg where
  | registration_ack (peer_id : String)
  | peer_count_update
  | task_assignment (task_id peer_id : String)
  | task_result_msg (task_id user : String)
  | task_error (task_id user : String)
deriving DecidableEq

/-- The selection key of `select_best_peer`:
`p.avg_completion_time if p.avg_completion_time > 0 else 999`. -/
def sel_key (p : PeerInfo) : ℚ :=
  if 0 < p.avg_completion_time then p.avg_completion_time else 999

/-- Python `min(..., key=sel_key)`: the first element attaining the minimal
key. -/
def min_by_key : List PeerInfo → Option PeerInfo
  | [] => none
  | p :: ps =>
    match min_by_key ps with
    | none => some p
    | some q => if sel_key q < sel_key p then some q else some p

/-- `CloudCoordinator.select_best_peer`: the idle peers, then `min` by the
average-completion-time key. -/
def select_best_peer (peers : List PeerInfo) : Option PeerInfo :=
  min_by_key (peers.filter (fun p => p.status == "idle"))

/-- The peer-record update of `handle_task_result`: idle, task cleared,
`tasks_completed += 1`, and the running average
`(avg * (total - 1) + completion_time) / total` with
`total = tasks_completed + tasks_failed` after the increment. -/
def complete_upd (ct : ℚ) (p : PeerInfo) : PeerInfo :=
  let completed := p.tasks_completed + 1
  let total := completed + p.tasks_failed
  { p with
      status := "idle"
      current_task := none
      tasks_completed := completed
      avg_completion_time := (p.avg_completion_time * (total - 1) + ct) / total }

/-- One message-handling step of `CloudCoordinator` (the dispatch of
`handle_message` plus `monitor_peers`' sweep body as `monitor_tick`):
returns the new state and the messages sent.  `handle_task_result` on a
pending task whose reporting peer is not registered raises `KeyError`
(caught by `handle_message`), so that case changes nothing and sends
nothing. -/
def step (s : CoordState) : Event → CoordState × List Msg
  | .register_peer pid now =>
    let fresh : PeerInfo := ⟨pid, "idle", none, 0, 0, 0, now⟩
    let peers1 := if s.peers.any (fun p => p.peer_id == pid)
      then s.peers.map (fun p => if p.peer_id == pid then fresh else p)
      else s.peers ++ [fresh]
    ({ s with peers := peers1 }, [.registration_ack pid, .peer_count_update])
  | .heartbeat pid now =>
    ({ s with peers := s.peers.map (fun p =>
        if p.peer_id == pid then { p with last_heartbeat := now } else p) }, [])
  | .task_request tid user now =>
    match select_best_peer s.peers with
    | some best =>
      ({ peers := s.peers.map (fun p =>
            if p.peer_id == best.peer_id then
              { p with status := "busy", current_task := some tid } else p)
         pending := fun t => if t == tid then some ⟨user, best.peer_id, now⟩ else s.pending t },
       [.task_assignment tid best.peer_id])
    | none => (s, [.task_error tid user])
  | .task_result tid pid now =>
    match s.pending tid with
    | none => (s, [])
    | some info =>
      match s.peers.find? (fun p => p.peer_id == pid) with
      | none => (s, [])
      | some _ =>
        ({ peers := s.peers.map (fun p =>
              if p.peer_id == pid then complete_upd (now - info.start_time) p else p)
           pending := fun t => if t == tid then none else s.pending t },
         [.task_result_msg tid info.user])
  | .task_failure tid pid _ =>
    let peers1 := s.peers.map (fun p =>
      if p.peer_id == pid then
        { p with status := "idle", current_task := none, tasks_failed := p.tasks_failed + 1 }
      else p)
    match s.pending tid with
    | some info =>
      ({ peers := peers1
         pending := fun t => if t == tid then none else s.pending t },
       [.task_error tid info.user])
    | none => ({ s with peers := peers1 }, [])
  | .monitor_tick now =>
    ({ s with peers := s.peers.filter (fun p => decide (now - p.last_heartbeat ≤ 30)) },
     [.peer_count_update])

/-- Whether a message is a terminal renter delivery for `tid`. -/
def Msg.terminal_for (tid : String) : Msg → Bool
  | .task_result_msg t _ => t == tid
  | .task_error t _ => t == tid
  | _ => false

/-- Whether an event is a submission of `tid`. -/
def Event.request_of (tid : String) : Event → Bool
  | .task_request t _ _ => t == tid
  | _ => false

/-- Process a list of events, accumulating all emitted messages. -/
def run (s : CoordState) : List Event → CoordState × List Msg
  | [] => (s, [])
  | e :: es =>
    let x := step s e
    let y := run x.1 es
    (y.1, x.2 ++ y.2)

/-- 1 when `tid` is pending, else 0. -/
def pend_ind (s : CoordState) (tid : String) : Nat :=
  if (s.pending tid).isSome then 1 else 0

end CloudNet

namespace CloudDemo

/-- A row of the `tasks` table of cloud_storage.py (the columns the cache
query touches). -/
structure TaskRow where
  task_id : String
  task_type : String
  task_data : String
  status : String
  peer_id : Option String := none
deriving DecidableEq

/-- A row of the `results` table (the columns the cache query touches). -/
structure ResultRow where
  task_id : String
  result_data : String
  created_at : ℚ
  expires_at : ℚ
deriving DecidableEq

/-- The SQLite store of `CloudStorage`. -/
structure Storage where
  tasks : List TaskRow
  results : List ResultRow
deriving DecidableEq

/-- The WHERE clause of `get_cached_result`'s query: the result row joins a
task row with the requested type and canonical data, the task is
`completed`, and `expires_at > now`. -/
def cache_matches (st : Storage) (typ dat : String) (now : ℚ) (r : ResultRow) : Bool :=
  decide (now < r.expires_at) &&
    st.tasks.any (fun t =>
      t.task_id == r.task_id && t.task_type == typ && t.task_data == dat &&
        t.status == "completed")

/-- `ORDER BY r.created_at DESC LIMIT 1`: the first row attaining the
maximal `created_at`. -/
def latest_result : List ResultRow → Option ResultRow
  | [] => none
  | r :: rs =>
    match latest_result rs with
    | none => some r
    | some q => if r.created_at < q.created_at then some q else some r

/-- `CloudStorage.get_cached_result(task_type, task_data)`. -/
def get_cached_result (st : Storage) (typ dat : String) (now : ℚ) : Option ResultRow :=
  latest_result (st.results.filter (cache_matches st typ dat now))

/-- Outcome of the `submit_task` branch of `run_cloud.py`'s `handle_client`:
a cached reply to the gamer, an assignment to the first connected peer, or a
no-peers error. -/
inductive SubmitOutcome where
  | cachedReply (r : ResultRow)
  | assigned (peer_id task_id : String)
  | noPeers (task_id : String)
deriving DecidableEq

/-- The `execute_task` messages an outcome causes: only an assignment sends
one (to exactly one peer). -/
def peer_sends : SubmitOutcome → List (String × String)
  | .assigned pid tid => [(pid, tid)]
  | _ => []

/-- `CloudStorage.assign_task_to_peer`: mark the task row assigned. -/
def assign_task_to_peer (st : Storage) (tid pid : String) : Storage :=
  { st with tasks := st.tasks.map (fun t =>
      if t.task_id == tid then { t with status := "assigned", peer_id := some pid } else t) }

/-- The `submit_task` message branch of `handle_client`: check the cache
first and answer from it on a hit (the task is neither stored nor routed);
otherwise store the task as `pending` and route it to the first connected
peer, or report `No peers available`. -/
def submit_task (st : Storage) (peers : List String) (typ dat task_id : String)
    (now : ℚ) : SubmitOutcome × Storage :=
  match get_cached_result st typ dat now with
  | some c => (.cachedReply c, st)
  | none =>
    let st1 : Storage := { st with tasks := st.tasks ++ [⟨task_id, typ, dat, "pending", none⟩] }
    match peers.head? with
    | some pid => (.assigned pid task_id, assign_task_to_peer st1 task_id pid)
    | none => (.noPeers task_id, st1)

end CloudDemo


/-! Concrete instances used by counterexamples and witnesses. -/

/-- Two registered peers for the failover trace: `A` is fast (latency 10),
`B` is the slow alternative (latency 1000); both fully reliable. -/
def peerA : P2C2G.PeerAgent := ⟨"A", 10, 0, 2, 1⟩

/-- The slow alternative peer. -/
def peerB : P2C2G.PeerAgent := ⟨"B", 1000, 0, 2, 1⟩

/-- Reputation table right after registering `A` and `B`. -/
def repAB : P2C2G.RepMap := [("A", 1), ("B", 1)]

/-- Reputation after `A` fails the initial attempt (`1 - 0.05`). -/
def repAB1 : P2C2G.RepMap := [("A", 19/20), ("B", 1)]

/-- Reputation after `A` also fails the first failover (`0.95 - 0.08`). -/
def repAB2 : P2C2G.RepMap := [("A", 87/100), ("B", 1)]

/-- A peer whose reputation `199/200` makes the truncated reputation
penalty differ from the exact one. -/
def peerT : P2C2G.PeerAgent := ⟨"peerA", 10, 0, 2, 1⟩

/-- Reputation table for `peerT`. -/
def repT : P2C2G.RepMap := [("peerA", 199/200)]

/-- Tied-score pair: `E` (latency 10, reputation 24/25) and `F`
(latency 12, reputation 1) both cost 12. -/
def peerE : P2C2G.PeerAgent := ⟨"E", 10, 0, 2, 24/25⟩

/-- The tied peer with the larger reputation, registered second. -/
def peerF : P2C2G.PeerAgent := ⟨"F", 12, 0, 2, 1⟩

/-- Reputation table for the tie pair. -/
def repEF : P2C2G.RepMap := [("E", 24/25), ("F", 1)]

/-- A peer at its in-flight cap (`in_flight = max_in_flight = 2`) with the
best score. -/
def peerC : P2C2G.PeerAgent := ⟨"C", 0, 2, 2, 1⟩

/-- An idle alternative with spare capacity but a worse score. -/
def peerD : P2C2G.PeerAgent := ⟨"D", 100, 0, 2, 1⟩

/-- Reputation table for the capacity pair. -/
def repCD : P2C2G.RepMap := [("C", 1), ("D", 1)]

/-- An ML-scheduler peer with clean telemetry and zero latency. -/
def mlP : MLCoord.MlPeer := ⟨"m", 0, 0, 2, 1, "normal", 0, 0⟩

/-- A trained history: ten completion times of 100 ms, five successes and
five failures, no task-type, hourly, network or jitter samples. -/
def mlH : MLCoord.PeerHistory :=
  ⟨[100, 100, 100, 100, 100, 100, 100, 100, 100, 100], 5, 5, [], [], [], []⟩

/-- A registered peer that is busy on task `T` and has not heartbeat since
time 0. -/
def stalePeer : CloudNet.PeerInfo := ⟨"P", "busy", some "T", 0, 0, 0, 0⟩

/-- Coordinator state with the stale peer and its task `T` pending. -/
def staleState : CloudNet.CoordState :=
  ⟨[stalePeer], fun t => if t == "T" then some ⟨"u", "P", 0⟩ else none⟩

/-- The empty networked-coordinator state. -/
def emptyState : CloudNet.CoordState := ⟨[], fun _ => none⟩

/-- A small honest trace: a peer registers, task `t` is submitted once, its
result arrives, and a duplicate late result arrives. -/
def c3events : List CloudNet.Event :=
  [.register_peer "p" 0, .task_request "t" "u" 1, .task_result "t" "p" 2,
   .task_result "t" "p" 3]

/-- Storage holding one completed task of type `upscale` with one cached
result created at 5 expiring at 100. -/
def st5 : CloudDemo.Storage :=
  ⟨[⟨"t0", "upscale", "\x7b\x7d", "completed", none⟩], [⟨"t0", "r0", 5, 100⟩]⟩

/-- The cached row of `st5`. -/
def row5 : CloudDemo.ResultRow := ⟨"t0", "r0", 5, 100⟩

/-! Helper lemmas about the scheduler recursion. -/

namespace P2C2G

lemma failoverAux_attempts_le (peers : List PeerAgent) :
    ∀ (fuel : Nat) (rep : RepMap) (a : Nat) (outs : List Bool),
      (failoverAux peers fuel rep a outs).attempts ≤ a + fuel := by
  intro fuel
  induction fuel with
  | zero => intro rep a outs; simp [failoverAux]
  | succ n ih =>
    intro rep a outs
    simp only [failoverAux]
    cases hp : pick_peer rep peers with
    | none => simp
    | some peer =>
      cases ho : outs.headD false
      · simp only [ho, Bool.false_eq_true, if_false]
        have hrec := ih (updRep rep peer.peer_id (updateRep false true)) (a + 1) outs.tail
        omega
      · simp [ho]

lemma failoverAux_assigned_le (peers : List PeerAgent) :
    ∀ (fuel : Nat) (rep : RepMap) (a : Nat) (outs : List Bool),
      (failoverAux peers fuel rep a outs).assigned.length ≤ fuel := by
  intro fuel
  induction fuel with
  | zero => intro rep a outs; simp [failoverAux]
  | succ n ih =>
    intro rep a outs
    simp only [failoverAux]
    cases hp : pick_peer rep peers with
    | none => simp
    | some peer =>
      cases ho : outs.headD false
      · simp only [ho, Bool.false_eq_true, if_false, List.length_cons]
        have hrec := ih (updRep rep peer.peer_id (updateRep false true)) (a + 1) outs.tail
        omega
      · simp [ho]

lemma failoverAux_recCalls_le (peers : List PeerAgent) :
    ∀ (fuel : Nat) (rep : RepMap) (a : Nat) (outs : List Bool),
      (failoverAux peers fuel rep a outs).recCalls ≤ fuel := by
  intro fuel
  induction fuel with
  | zero => intro rep a outs; simp [failoverAux]
  | succ n ih =>
    intro rep a outs
    simp only [failoverAux]
    cases hp : pick_peer rep peers with
    | none => simp
    | some peer =>
      cases ho : outs.headD false
      · simp only [ho, Bool.false_eq_true, if_false]
        have hrec := ih (updRep rep peer.peer_id (updateRep false true)) (a + 1) outs.tail
        omega
      · simp [ho]

end P2C2G

/-- C1: starting from a fresh task (`attempts = 0`) with `max_attempts ≥ 1`,
the initial scheduling plus all failover handling leaves the task's
`attempts` counter at most `max_attempts`, and the task is assigned at most
`max_attempts` times in total (one initial assignment plus at most
`max_attempts - 1` re-assignments). -/
theorem c1_attempt_bound (peers : List P2C2G.PeerAgent) (m : Nat)
    (rep : P2C2G.RepMap) (outs : List Bool) (h : 1 ≤ m) :
    (P2C2G.schedule_task peers m rep 0 outs).attempts ≤ m ∧
    (P2C2G.schedule_task peers m rep 0 outs).assigned.length ≤ m := by
  unfold P2C2G.schedule_task
  cases hp : P2C2G.pick_peer rep peers with
  | none => simpa using h
  | some peer =>
    cases ho : outs.headD false
    case true =>
      simp only [ho, if_true]
      exact ⟨h, by simpa using h⟩
    case false =>
      simp only [ho, Bool.false_eq_true, if_false, List.length_cons, Nat.zero_add]
      unfold P2C2G.handle_failover
      have h1 := P2C2G.failoverAux_attempts_le peers (m - 1)
        (P2C2G.updRep rep peer.peer_id (P2C2G.updateRep false false)) 1 outs.tail
      have h2 := P2C2G.failoverAux_assigned_le peers (m - 1)
        (P2C2G.updRep rep peer.peer_id (P2C2G.updateRep false false)) 1 outs.tail
      constructor <;> omega

/-- Witness for C1 at `max_attempts = 3` on the empty registry. -/
theorem c1_attempt_bound_witness :
    1 ≤ 3 ∧ (P2C2G.schedule_task [] 3 [] 0 []).attempts ≤ 3 ∧
      (P2C2G.schedule_task [] 3 [] 0 []).assigned.length ≤ 3 :=
  ⟨by norm_num, (c1_attempt_bound [] 3 [] [] (by norm_num)).1,
    (c1_attempt_bound [] 3 [] [] (by norm_num)).2⟩

/-- C10: `handle_failover` terminates, with recursion depth (number of
recursive self-calls) bounded by `max_attempts` minus the task's `attempts`
at entry; in the embedding the recursion is total by construction and the
call counter obeys exactly that bound. -/
theorem c10_failover_recursion_bound (peers : List P2C2G.PeerAgent)
    (m : Nat) (rep : P2C2G.RepMap) (a : Nat) (outs : List Bool) :
    (P2C2G.handle_failover peers m rep a outs).recCalls ≤ m - a :=
  P2C2G.failoverAux_recCalls_le peers (m - a) rep a outs

/-! Evaluation lemmas for the concrete failover trace of peers `A` and `B`. -/

lemma c2h_idA : peerA.peer_id = "A" := rfl

lemma c2h_upd0 : P2C2G.updRep repAB "A" (P2C2G.updateRep false false) = repAB1 := by
  simp [P2C2G.updRep, P2C2G.updateRep, repAB, repAB1]
  norm_num

lemma c2h_upd1 : P2C2G.updRep repAB1 "A" (P2C2G.updateRep false true) = repAB2 := by
  simp [P2C2G.updRep, P2C2G.updateRep, repAB1, repAB2]
  norm_num

lemma c2h_repA1 : P2C2G.repOf repAB1 "A" = 19/20 := by simp [P2C2G.repOf, repAB1]

lemma c2h_repB1 : P2C2G.repOf repAB1 "B" = 1 := by simp [P2C2G.repOf, repAB1]

lemma c2h_repA2 : P2C2G.repOf repAB2 "A" = 87/100 := by simp [P2C2G.repOf, repAB2]

lemma c2h_repB2 : P2C2G.repOf repAB2 "B" = 1 := by simp [P2C2G.repOf, repAB2]

lemma c2h_costA1 : P2C2G.cost repAB1 peerA = 12 := by
  norm_num [P2C2G.cost, P2C2G.pyInt, peerA, c2h_repA1]

lemma c2h_costB1 : P2C2G.cost repAB1 peerB = 1000 := by
  norm_num [P2C2G.cost, P2C2G.pyInt, peerB, c2h_repB1]

lemma c2h_costA2 : P2C2G.cost repAB2 peerA = 16 := by
  norm_num [P2C2G.cost, P2C2G.pyInt, peerA, c2h_repA2]

lemma c2h_costB2 : P2C2G.cost repAB2 peerB = 1000 := by
  norm_num [P2C2G.cost, P2C2G.pyInt, peerB, c2h_repB2]

lemma c2h_pick0 : P2C2G.pick_peer repAB [peerA, peerB] = some peerA := by
  simp [P2C2G.pick_peer, P2C2G.cost, P2C2G.pyInt, P2C2G.repOf, repAB, peerA, peerB]

lemma c2h_pick1 : P2C2G.pick_peer repAB1 [peerA, peerB] = some peerA := by
  simp [P2C2G.pick_peer, c2h_costA1, c2h_costB1]

lemma c2h_pick2 : P2C2G.pick_peer repAB2 [peerA, peerB] = some peerA := by
  simp [P2C2G.pick_peer, c2h_costA2, c2h_costB2]

/-- C2 counterexample: with peer `B` registered as an alternative, a task
that keeps failing on `A` is re-assigned to `A` twice in a row
(assigned sequence `A, A, A`), so the sequence of assigned peers has
consecutive duplicates even though an alternative peer exists:
`pick_peer` never excludes the previously failing peer. -/
theorem c2_self_retry_counterexample :
    (P2C2G.schedule_task [peerA, peerB] 3 repAB 0 [false, false]).assigned = ["A", "A", "A"] ∧
    ¬ (P2C2G.schedule_task [peerA, peerB] 3 repAB 0 [false, false]).assigned.Chain' (· ≠ ·) ∧
    peerB ∈ [peerA, peerB] ∧ peerB.peer_id ≠ peerA.peer_id := by
  have htrace :
      (P2C2G.schedule_task [peerA, peerB] 3 repAB 0 [false, false]).assigned = ["A", "A", "A"] := by
    simp [P2C2G.schedule_task, P2C2G.handle_failover, P2C2G.failoverAux,
      c2h_pick0, c2h_upd0, c2h_pick1, c2h_upd1, c2h_pick2, c2h_idA]
  refine ⟨htrace, ?_, by simp, by simp [peerA, peerB]⟩
  rw [htrace]
  simp

/-- C2 amended: `handle_failover` re-selects with the same score
minimization over the full registry — the peer of its first re-assignment
is exactly `pick_peer` of the whole peer list, with no exclusion of the
previously failing peer (so consecutive duplicates can occur, as the
counterexample shows; the failing peer is only disfavoured through its
reputation penalty). -/
theorem c2_failover_reselects_full_registry (peers : List P2C2G.PeerAgent)
    (m : Nat) (rep : P2C2G.RepMap) (a : Nat) (outs : List Bool)
    (p : P2C2G.PeerAgent) (ha : a < m)
    (hp : P2C2G.pick_peer rep peers = some p) :
    (P2C2G.handle_failover peers m rep a outs).assigned.head? = some p.peer_id := by
  obtain ⟨k, hk⟩ : ∃ k, m - a = k + 1 := ⟨m - a - 1, by omega⟩
  unfold P2C2G.handle_failover
  rw [hk]
  simp only [P2C2G.failoverAux, hp]
  cases ho : outs.headD false <;> simp [ho]

/-- Witness for the amended C2 at the concrete two-peer registry. -/
theorem c2_failover_reselects_full_registry_witness :
    1 < 3 ∧ P2C2G.pick_peer repAB [peerA, peerB] = some peerA ∧
    (P2C2G.handle_failover [peerA, peerB] 3 repAB 1 []).assigned.head? = some "A" :=
  ⟨by norm_num, c2h_pick0,
    c2_failover_reselects_full_registry [peerA, peerB] 3 repAB 1 [] peerA
      (by norm_num) c2h_pick0⟩

/-- C6: every single reputation observation of the scheduler (any of the
four `updateRep` cases used by `schedule_task` and `handle_failover`) keeps
a reputation that started in `[0, 1]` inside `[0, 1]`, moves it upward by at
most `0.02` and downward by at most `0.08`. -/
theorem c6_reputation_bounds (s f : Bool) (r : ℚ) (h0 : 0 ≤ r) (h1 : r ≤ 1) :
    0 ≤ P2C2G.updateRep s f r ∧ P2C2G.updateRep s f r ≤ 1 ∧
    P2C2G.updateRep s f r - r ≤ 2/100 ∧ r - P2C2G.updateRep s f r ≤ 8/100 := by
  cases s <;> cases f <;> simp only [P2C2G.updateRep]
  · refine ⟨le_max_left _ _, max_le (by norm_num) (by linarith), ?_, ?_⟩
    · have : max (0 : ℚ) (r - 5/100) ≤ r + 2/100 := max_le (by linarith) (by linarith)
      linarith
    · have := le_max_right (0 : ℚ) (r - 5/100)
      linarith
  · refine ⟨le_max_left _ _, max_le (by norm_num) (by linarith), ?_, ?_⟩
    · have : max (0 : ℚ) (r - 8/100) ≤ r + 2/100 := max_le (by linarith) (by linarith)
      linarith
    · have := le_max_right (0 : ℚ) (r - 8/100)
      linarith
  · refine ⟨le_min (by norm_num) (by linarith), min_le_left _ _, ?_, ?_⟩
    · have := min_le_right (1 : ℚ) (r + 2/100)
      linarith
    · have : r ≤ min (1 : ℚ) (r + 2/100) := le_min h1 (by linarith)
      linarith
  · refine ⟨le_min (by norm_num) (by linarith), min_le_left _ _, ?_, ?_⟩
    · have := min_le_right (1 : ℚ) (r + 1/100)
      linarith
    · have : r ≤ min (1 : ℚ) (r + 1/100) := le_min h1 (by linarith)
      linarith

/-- Witness for C6 at `r = 1/2` on the initial-failure observation. -/
theorem c6_reputation_bounds_witness :
    (0 ≤ (1/2 : ℚ) ∧ (1/2 : ℚ) ≤ 1) ∧
    (0 ≤ P2C2G.updateRep false false (1/2) ∧ P2C2G.updateRep false false (1/2) ≤ 1 ∧
      P2C2G.updateRep false false (1/2) - 1/2 ≤ 2/100 ∧
      1/2 - P2C2G.updateRep false false (1/2) ≤ 8/100) :=
  ⟨⟨by norm_num, by norm_num⟩,
    c6_reputation_bounds false false (1/2) (by norm_num) (by norm_num)⟩

lemma c7h_repE : P2C2G.repOf repEF "E" = 24/25 := by simp [P2C2G.repOf, repEF]

lemma c7h_repF : P2C2G.repOf repEF "F" = 1 := by simp [P2C2G.repOf, repEF]

lemma c7h_costE : P2C2G.cost repEF peerE = 12 := by
  norm_num [P2C2G.cost, P2C2G.pyInt, peerE, c7h_repE]

lemma c7h_costF : P2C2G.cost repEF peerF = 12 := by
  norm_num [P2C2G.cost, P2C2G.pyInt, peerF, c7h_repF]

/-- C7 counterexample: the implemented score truncates the reputation term
(`int((1 - rep) * 50)`), so for reputation `199/200` it differs from the
spec's exact `latency + 15·in_flight + 50·(1 - rep)`; and on the tied pair
`E`, `F` (both cost 12, also tied under the exact score) the selector
returns the first-registered peer `E` although `F` has the larger
reputation, so ties are not broken by reputation (nor in_flight or a hash). -/
theorem c7_score_truncation_counterexample :
    ((P2C2G.cost repT peerT : ℚ) ≠ P2C2G.score_spec repT peerT) ∧
    P2C2G.pick_peer repEF [peerE, peerF] = some peerE ∧
    P2C2G.cost repEF peerE = P2C2G.cost repEF peerF ∧
    P2C2G.score_spec repEF peerE = P2C2G.score_spec repEF peerF ∧
    P2C2G.repOf repEF "E" < P2C2G.repOf repEF "F" := by
  refine ⟨?_, ?_, ?_, ?_, ?_⟩
  · simp [P2C2G.cost, P2C2G.score_spec, P2C2G.pyInt, P2C2G.repOf, repT, peerT]
    norm_num
  · simp [P2C2G.pick_peer, c7h_costE, c7h_costF]
  · rw [c7h_costE, c7h_costF]
  · simp [P2C2G.score_spec, P2C2G.repOf, repEF, peerE, peerF]
    norm_num
  · simp [P2C2G.repOf, repEF]
    norm_num

lemma pick_peer_ne_none (rep : P2C2G.RepMap) (p : P2C2G.PeerAgent)
    (ps : List P2C2G.PeerAgent) : P2C2G.pick_peer rep (p :: ps) ≠ none := by
  simp only [P2C2G.pick_peer]
  cases P2C2G.pick_peer rep ps with
  | none => simp
  | some q => by_cases h : P2C2G.cost rep q < P2C2G.cost rep p <;> simp [h]

/-- C7 amended: the selector's score is the truncated
`latency + 15·in_flight + int((1 - reputation)·50)` and `pick_peer` returns
the first peer in registration order among those of minimal score: the list
splits as `l₁ ++ p :: l₂` where every peer before `p` costs strictly more
and no peer costs less. -/
theorem c7_pick_peer_first_minimal (rep : P2C2G.RepMap) :
    ∀ (l : List P2C2G.PeerAgent), l ≠ [] →
      ∃ l₁ p l₂, l = l₁ ++ p :: l₂ ∧ P2C2G.pick_peer rep l = some p ∧
        (∀ q ∈ l₁, P2C2G.cost rep p < P2C2G.cost rep q) ∧
        (∀ q ∈ l, P2C2G.cost rep p ≤ P2C2G.cost rep q) := by
  intro l
  induction l with
  | nil => intro h; exact absurd rfl h
  | cons p ps ih =>
    intro _
    cases hp : P2C2G.pick_peer rep ps with
    | none =>
      have hps : ps = [] := by
        cases ps with
        | nil => rfl
        | cons r rs => exact absurd hp (pick_peer_ne_none rep r rs)
      subst hps
      exact ⟨[], p, [], by simp, by simp [P2C2G.pick_peer], by simp, by simp⟩
    | some q =>
      have hne : ps ≠ [] := by
        rintro rfl
        simp [P2C2G.pick_peer] at hp
      obtain ⟨l₁, pm, l₂, hsplit, hpick, hbefore, hmin⟩ := ih hne
      have hqm : pm = q := by
        rw [hp] at hpick
        exact (Option.some.inj hpick).symm
      subst hqm
      by_cases hc : P2C2G.cost rep pm < P2C2G.cost rep p
      · refine ⟨p :: l₁, pm, l₂, by simp [hsplit], ?_, ?_, ?_⟩
        · simp only [P2C2G.pick_peer, hp, if_pos hc]
        · intro r hr
          rcases List.mem_cons.mp hr with rfl | hr
          · exact hc
          · exact hbefore r hr
        · intro r hr
          rcases List.mem_cons.mp hr with rfl | hr
          · exact le_of_lt hc
          · exact hmin r hr
      · refine ⟨[], p, ps, by simp, ?_, by simp, ?_⟩
        · simp only [P2C2G.pick_peer, hp, if_neg hc]
        · intro r hr
          rcases List.mem_cons.mp hr with rfl | hr
          · exact le_refl _
          · exact le_trans (not_lt.mp hc) (hmin r hr)

/-- Witness for the amended C7 on the one-peer registry. -/
theorem c7_pick_peer_first_minimal_witness :
    ([peerT] : List P2C2G.PeerAgent) ≠ [] ∧
    ∃ l₁ p l₂, [peerT] = l₁ ++ p :: l₂ ∧
      P2C2G.pick_peer repT [peerT] = some p ∧
      (∀ q ∈ l₁, P2C2G.cost repT p < P2C2G.cost repT q) ∧
      (∀ q ∈ [peerT], P2C2G.cost repT p ≤ P2C2G.cost repT q) :=
  ⟨by simp, c7_pick_peer_first_minimal repT [peerT] (by simp)⟩

lemma c8h_repC : P2C2G.repOf repCD "C" = 1 := by simp [P2C2G.repOf, repCD]

lemma c8h_repD : P2C2G.repOf repCD "D" = 1 := by simp [P2C2G.repOf, repCD]

lemma c8h_costC : P2C2G.cost repCD peerC = 30 := by
  norm_num [P2C2G.cost, P2C2G.pyInt, peerC, c8h_repC]

lemma c8h_costD : P2C2G.cost repCD peerD = 100 := by
  norm_num [P2C2G.cost, P2C2G.pyInt, peerD, c8h_repD]

/-- C8 counterexample: `pick_peer` applies no candidate filtering — it
selects peer `C`, whose `in_flight` equals its cap, even though the idle
alternative `D` has spare capacity; a peer at its cap is therefore in (and
can win) the basic selector's candidate set. -/
theorem c8_capped_peer_selected_counterexample :
    P2C2G.pick_peer repCD [peerC, peerD] = some peerC ∧
    peerC.in_flight = peerC.max_in_flight ∧
    peerD.in_flight < peerD.max_in_flight := by
  refine ⟨?_, rfl, by norm_num [peerD]⟩
  simp [P2C2G.pick_peer, c8h_costC, c8h_costD]

lemma pick_peer_mem (rep : P2C2G.RepMap) :
    ∀ (l : List P2C2G.PeerAgent) (p : P2C2G.PeerAgent),
      P2C2G.pick_peer rep l = some p → p ∈ l := by
  intro l
  induction l with
  | nil => intro p hp; simp [P2C2G.pick_peer] at hp
  | cons q qs ih =>
    intro p hp
    simp only [P2C2G.pick_peer] at hp
    cases h : P2C2G.pick_peer rep qs with
    | none =>
      rw [h] at hp
      simp only at hp
      exact (Option.some.inj hp) ▸ List.mem_cons_self q qs
    | some r =>
      rw [h] at hp
      simp only at hp
      by_cases hc : P2C2G.cost rep r < P2C2G.cost rep q
      · rw [if_pos hc] at hp
        exact List.mem_cons_of_mem q (ih p (by rw [h, ← Option.some.inj hp]))
      · rw [if_neg hc] at hp
        exact (Option.some.inj hp) ▸ List.mem_cons_self q qs

/-- C8 amended: the basic selector `pick_peer` chooses among all registered
peers (`pick_peer` only ever returns a member of the full registry and, as
the counterexample shows, can return a peer at its in-flight cap; it tests
neither idleness nor capacity nor capabilities); only the ML scheduler's
candidate set filters, and it excludes exactly the peers with
`in_flight ≥ max_in_flight` (no constraint check either). -/
theorem c8_candidate_filtering :
    (∀ (rep : P2C2G.RepMap) (l : List P2C2G.PeerAgent) (p : P2C2G.PeerAgent),
        P2C2G.pick_peer rep l = some p → p ∈ l) ∧
    (∀ (ps : List MLCoord.MlPeer) (c : MLCoord.MlPeer),
        c ∈ MLCoord.ml_candidates ps ↔ c ∈ ps ∧ c.in_flight < c.max_in_flight) := by
  refine ⟨fun rep l p => pick_peer_mem rep l p, fun ps c => ?_⟩
  simp [MLCoord.ml_candidates, List.mem_filter]

/-- Witness for the amended C8: `pick_peer` returned `C`, a member of the
registry, and the ML candidate set of `[mlP]` keeps `mlP` since its
in-flight count is below its cap. -/
theorem c8_candidate_filtering_witness :
    (P2C2G.pick_peer repCD [peerC, peerD] = some peerC → peerC ∈ [peerC, peerD]) ∧
    (mlP ∈ MLCoord.ml_candidates [mlP] ↔ mlP ∈ [mlP] ∧ mlP.in_flight < mlP.max_in_flight) :=
  ⟨c8_candidate_filtering.1 repCD [peerC, peerD] peerC,
    c8_candidate_filtering.2 [mlP] mlP⟩

lemma c9h_expected : MLCoord.predict_expected 0 mlH = 100 := by
  norm_num [MLCoord.predict_expected, MLCoord.get_task_type_avg,
    MLCoord.avg_completion_time, MLCoord.listMean, mlH]

lemma c9h_risk : MLCoord.failure_risk mlP mlH = 3/20 := by
  simp [MLCoord.failure_risk, MLCoord.success_rate, mlP, mlH]
  norm_num [min_def]

lemma c9h_score : MLCoord.ml_score mlP mlH = 5000/43 := by
  have hl : mlH.completion_times.length = 10 := by simp [mlH]
  rw [MLCoord.ml_score, if_pos (by rw [hl]; norm_num [MLCoord.min_training_samples])]
  show MLCoord.predict_expected mlP.in_flight mlH /
      (1 - MLCoord.failure_risk mlP mlH + 1/100) + mlP.latency_ms = 5000/43
  have hin : mlP.in_flight = 0 := rfl
  rw [hin, c9h_expected, c9h_risk]
  norm_num [mlP]

/-- C9 counterexample: for the trained history `mlH` (ten samples,
success rate 1/2, failure risk 3/20) the implemented score divides by
`1 - failure_prob + 0.01` (giving 5000/43), not by
`max(ε, 1 - failure_prob)` as the spec prescribes (which would give
2000/17): the two formulas disagree on this candidate. -/
theorem c9_risk_denominator_counterexample :
    MLCoord.min_training_samples ≤ mlH.completion_times.length ∧
    MLCoord.ml_score mlP mlH ≠
      MLCoord.risk_adjusted_spec (MLCoord.predict_expected mlP.in_flight mlH)
        (MLCoord.failure_risk mlP mlH) + mlP.latency_ms := by
  constructor
  · simp [mlH, MLCoord.min_training_samples]
  · have hin : mlP.in_flight = 0 := rfl
    rw [c9h_score, hin, c9h_expected, c9h_risk]
    norm_num [MLCoord.risk_adjusted_spec, max_def, mlP]

/-- C9 amended: for a candidate with at least `min_training_samples`
recorded completion times the score is
`expected_ms / (1 - failure_probability + 0.01) + reported_latency_ms`
(an additive-epsilon denominator, not `max(ε, 1 - failure_probability)`);
with fewer samples the fallback is
`(100 + 5·in_flight) / (reliability + 0.01) + reported_latency_ms`. -/
theorem c9_ml_score_formula (p : MLCoord.MlPeer) (h : MLCoord.PeerHistory) :
    (MLCoord.min_training_samples ≤ h.completion_times.length →
      MLCoord.ml_score p h =
        MLCoord.predict_expected p.in_flight h /
          (1 - MLCoord.failure_risk p h + 1/100) + p.latency_ms) ∧
    (h.completion_times.length < MLCoord.min_training_samples →
      MLCoord.ml_score p h =
        (100 + p.in_flight * 5) / (p.reliability + 1/100) + p.latency_ms) := by
  constructor
  · intro hlen
    rw [MLCoord.ml_score, if_pos hlen]
  · intro hlen
    rw [MLCoord.ml_score, if_neg (by omega)]

/-- Witness for the amended C9 at the trained candidate. -/
theorem c9_ml_score_formula_witness :
    MLCoord.min_training_samples ≤ mlH.completion_times.length ∧
    MLCoord.ml_score mlP mlH =
      MLCoord.predict_expected mlP.in_flight mlH /
        (1 - MLCoord.failure_risk mlP mlH + 1/100) + mlP.latency_ms :=
  ⟨by simp [mlH, MLCoord.min_training_samples],
    (c9_ml_score_formula mlP mlH).1 (by simp [mlH, MLCoord.min_training_samples])⟩

namespace CloudNet

lemma step_terminal_bound (s : CoordState) (e : Event) (tid : String) :
    ((step s e).2.countP (Msg.terminal_for tid)) + pend_ind (step s e).1 tid
      ≤ pend_ind s tid + (if Event.request_of tid e then 1 else 0) := by
  cases e with
  | register_peer pid now =>
    simp [step, Event.request_of, Msg.terminal_for, pend_ind]
  | heartbeat pid now =>
    simp [step, Event.request_of, Msg.terminal_for, pend_ind]
  | monitor_tick now =>
    simp [step, Event.request_of, Msg.terminal_for, pend_ind]
  | task_request t u now =>
    cases hb : select_best_peer s.peers with
    | some best =>
      by_cases ht : t = tid
      · subst ht
        simp [step, hb, Event.request_of, Msg.terminal_for, pend_ind]
      · simp [step, hb, Event.request_of, Msg.terminal_for, pend_ind,
          ht, Ne.symm ht]
    | none =>
      by_cases ht : t = tid
      · subst ht
        simp [step, hb, Event.request_of, Msg.terminal_for, pend_ind]
        omega
      · simp [step, hb, Event.request_of, Msg.terminal_for, pend_ind, ht]
  | task_result t pid now =>
    cases hpend : s.pending t with
    | none =>
      simp [step, hpend, Event.request_of, Msg.terminal_for, pend_ind]
    | some info =>
      cases hfind : s.peers.find? (fun p => p.peer_id == pid) with
      | none =>
        simp [step, hpend, hfind, Event.request_of, Msg.terminal_for, pend_ind]
      | some q =>
        by_cases ht : t = tid
        · subst ht
          simp [step, hpend, hfind, Event.request_of, Msg.terminal_for, pend_ind, hpend]
        · simp [step, hpend, hfind, Event.request_of, Msg.terminal_for, pend_ind,
            ht, Ne.symm ht]
  | task_failure t pid now =>
    cases hpend : s.pending t with
    | none =>
      simp [step, hpend, Event.request_of, Msg.terminal_for, pend_ind]
    | some info =>
      by_cases ht : t = tid
      · subst ht
        simp [step, hpend, Event.request_of, Msg.terminal_for, pend_ind]
      · simp [step, hpend, Event.request_of, Msg.terminal_for, pend_ind,
          ht, Ne.symm ht]

lemma run_terminal_bound (tid : String) :
    ∀ (events : List Event) (s : CoordState),
      ((run s events).2.countP (Msg.terminal_for tid)) + pend_ind (run s events).1 tid
        ≤ pend_ind s tid + events.countP (Event.request_of tid) := by
  intro events
  induction events with
  | nil => intro s; simp [run]
  | cons e es ih =>
    intro s
    have hstep := step_terminal_bound s e tid
    have hrest := ih (step s e).1
    simp only [run, List.countP_append, List.countP_cons]
    by_cases hr : Event.request_of tid e
    · simp only [hr, if_true] at hstep ⊢
      omega
    · simp only [hr, if_false] at hstep ⊢
      omega

end CloudNet

/-- C3: for a task id that is not pending initially and is submitted at most
once, the whole event trace makes the coordinator emit at most one terminal
renter message (result delivery or task error) for it; and a `task_result`
arriving when the task id is no longer pending is discarded without any
state change or message. -/
theorem c3_unique_terminal_delivery :
    (∀ (s0 : CloudNet.CoordState) (events : List CloudNet.Event) (tid : String),
        s0.pending tid = none →
        events.countP (CloudNet.Event.request_of tid) ≤ 1 →
        ((CloudNet.run s0 events).2.countP (CloudNet.Msg.terminal_for tid)) ≤ 1) ∧
    (∀ (s : CloudNet.CoordState) (tid pid : String) (now : ℚ),
        s.pending tid = none →
        CloudNet.step s (.task_result tid pid now) = (s, [])) := by
  constructor
  · intro s0 events tid hpend hreq
    have h := CloudNet.run_terminal_bound tid events s0
    have hp0 : CloudNet.pend_ind s0 tid = 0 := by simp [CloudNet.pend_ind, hpend]
    omega
  · intro s tid pid now hpend
    simp [CloudNet.step, hpend]

/-- Witness for C3 on a concrete four-event trace with a duplicate late
result. -/
theorem c3_unique_terminal_delivery_witness :
    (emptyState.pending "t" = none ∧
      c3events.countP (CloudNet.Event.request_of "t") ≤ 1) ∧
    ((CloudNet.run emptyState c3events).2.countP (CloudNet.Msg.terminal_for "t")) ≤ 1 :=
  ⟨⟨rfl, by simp [c3events, CloudNet.Event.request_of]⟩,
    c3_unique_terminal_delivery.1 emptyState c3events "t" rfl
      (by simp [c3events, CloudNet.Event.request_of])⟩

/-- C4 counterexample: peer `P` is stale (no heartbeat for 100 s > 30 s)
and busy with the pending task `T`; one monitor sweep removes `P` from the
registry, but `T` is still pending, assigned to the removed peer — it is
neither re-queued nor failed, and no message about it is emitted. -/
theorem c4_stale_peer_task_left_pending :
    (30 : ℚ) < 100 - stalePeer.last_heartbeat ∧
    stalePeer.current_task = some "T" ∧
    (CloudNet.step staleState (.monitor_tick 100)).1.peers = [] ∧
    (CloudNet.step staleState (.monitor_tick 100)).1.pending "T" = some ⟨"u", "P", 0⟩ ∧
    (CloudNet.step staleState (.monitor_tick 100)).2.countP
      (CloudNet.Msg.terminal_for "T") = 0 := by
  refine ⟨by norm_num [stalePeer], rfl, ?_, ?_, ?_⟩
  · simp only [CloudNet.step, staleState, stalePeer]
    rw [List.filter_cons]
    norm_num
  · simp [CloudNet.step, staleState]
  · simp [CloudNet.step, CloudNet.Msg.terminal_for]

/-- C4 amended: one monitor sweep removes exactly the peers whose last
heartbeat is more than 30 s old, leaves `pending_tasks` untouched (tasks
assigned to removed peers stay pending; nothing is re-queued or failed),
and emits no terminal message. -/
theorem c4_monitor_removes_stale_keeps_pending (s : CloudNet.CoordState)
    (now : ℚ) (tid : String) :
    (CloudNet.step s (.monitor_tick now)).1.peers
        = s.peers.filter (fun p => decide (now - p.last_heartbeat ≤ 30)) ∧
    (CloudNet.step s (.monitor_tick now)).1.pending = s.pending ∧
    (CloudNet.step s (.monitor_tick now)).2.countP (CloudNet.Msg.terminal_for tid) = 0 := by
  refine ⟨rfl, rfl, by simp [CloudNet.step, CloudNet.Msg.terminal_for]⟩

namespace CloudDemo

lemma latest_result_ne_none (r : ResultRow) (rs : List ResultRow) :
    latest_result (r :: rs) ≠ none := by
  simp only [latest_result]
  cases latest_result rs with
  | none => simp
  | some q => by_cases h : r.created_at < q.created_at <;> simp [h]

lemma latest_result_mem : ∀ (l : List ResultRow) (q : ResultRow),
    latest_result l = some q → q ∈ l ∧ ∀ r ∈ l, r.created_at ≤ q.created_at := by
  intro l
  induction l with
  | nil => intro q hq; simp [latest_result] at hq
  | cons r rs ih =>
    intro q hq
    simp only [latest_result] at hq
    cases h : latest_result rs with
    | none =>
      have hrs : rs = [] := by
        cases rs with
        | nil => rfl
        | cons a as => exact absurd h (latest_result_ne_none a as)
      subst hrs
      rw [h] at hq
      simp only at hq
      have hrq : r = q := Option.some.inj hq
      subst hrq
      exact ⟨List.mem_cons_self _ _, by intro x hx; simp at hx; subst hx; exact le_refl _⟩
    | some m =>
      rw [h] at hq
      simp only at hq
      obtain ⟨hm, hmax⟩ := ih m h
      by_cases hc : r.created_at < m.created_at
      · rw [if_pos hc] at hq
        have hmq : m = q := Option.some.inj hq
        subst hmq
        refine ⟨List.mem_cons_of_mem _ hm, ?_⟩
        intro x hx
        rcases List.mem_cons.mp hx with rfl | hx
        · exact le_of_lt hc
        · exact hmax x hx
      · rw [if_neg hc] at hq
        have hrq : r = q := Option.some.inj hq
        subst hrq
        refine ⟨List.mem_cons_self _ _, ?_⟩
        intro x hx
        rcases List.mem_cons.mp hx with rfl | hx
        · exact le_refl _
        · exact le_trans (hmax x hx) (not_lt.mp hc)

end CloudDemo

/-- C5: when the cache holds a non-expired completed result for the
submitted `(task_type, task_data)` pair, the submit branch answers with that
cached row, leaves storage untouched (the task is not even stored, so its
attempts stay 0), sends no `execute_task` to any peer, and the returned row
is a matching non-expired completed entry of maximal `created_at` (the most
recent one). -/
theorem c5_cache_hit_no_assignment (st : CloudDemo.Storage) (peers : List String)
    (typ dat tid : String) (now : ℚ) (c : CloudDemo.ResultRow)
    (h : CloudDemo.get_cached_result st typ dat now = some c) :
    CloudDemo.submit_task st peers typ dat tid now = (.cachedReply c, st) ∧
    CloudDemo.peer_sends (CloudDemo.submit_task st peers typ dat tid now).1 = [] ∧
    CloudDemo.cache_matches st typ dat now c = true ∧
    (∀ r ∈ st.results, CloudDemo.cache_matches st typ dat now r = true →
      r.created_at ≤ c.created_at) := by
  have hsub : CloudDemo.submit_task st peers typ dat tid now = (.cachedReply c, st) := by
    simp [CloudDemo.submit_task, h]
  have h2 := h
  simp only [CloudDemo.get_cached_result] at h2
  obtain ⟨hmem, hmax⟩ := CloudDemo.latest_result_mem _ c h2
  refine ⟨hsub, by rw [hsub]; rfl, (List.mem_filter.mp hmem).2, ?_⟩
  intro r hr hmatch
  exact hmax r (List.mem_filter.mpr ⟨hr, hmatch⟩)

/-- Witness for C5 on a one-task, one-result storage at time 10. -/
theorem c5_cache_hit_no_assignment_witness :
    CloudDemo.get_cached_result st5 "upscale" "\x7b\x7d" 10 = some row5 ∧
    CloudDemo.submit_task st5 ["peer1"] "upscale" "\x7b\x7d" "t1" 10
      = (.cachedReply row5, st5) ∧
    CloudDemo.peer_sends
      (CloudDemo.submit_task st5 ["peer1"] "upscale" "\x7b\x7d" "t1" 10).1 = [] := by
  have hhit : CloudDemo.get_cached_result st5 "upscale" "\x7b\x7d" 10 = some row5 := by
    simp [CloudDemo.get_cached_result, CloudDemo.latest_result, CloudDemo.cache_matches,
      st5, row5]
  have happ := c5_cache_hit_no_assignment st5 ["peer1"] "upscale" "\x7b\x7d" "t1" 10 row5 hhit
  exact ⟨hhit, happ.1, happ.2.1⟩
